import Mathlib

/-!
Verification of the tenant-scoped migration orchestrator
(`packages/frontend-core/src/utils/utils.ts` and the app-migration queue
module) against its natural-language specification.

The queue configuration, the alert callback, `init`/`processMessage` and
`parseFilter` are translated directly from the source.  The queue engine
itself (the `BudibaseQueue` wrapper around bull) is not part of the visible
source, so its job life-cycle is modelled from the specification, as noted
on each such definition.
-/

namespace Budibase

/-- Job life-cycle states, from the spec's state machine
`Waiting → Active → (Completed | Waiting(retry) | Failed | Stalled)`. -/
inductive JobStatus
  | waiting
  | active
  | completed
  | failed
  | stalled
  deriving DecidableEq, Repr

/-- `QueueConfig` from the spec's data model: process-wide, read once at
startup, immutable thereafter. -/
structure QueueConfig where
  maxAttempts : Nat
  concurrency : Nat
  removeOnComplete : Bool
  removeOnFail : Bool
  maxStalledCount : Nat
  deriving DecidableEq, Repr

/-- `const MAX_ATTEMPTS = 3` from the source. -/
def MAX_ATTEMPTS : Nat := 3

/-- `const MIGRATION_CONCURRENCY = 5` from the source (max number of
migrations to run at the same time, per node). -/
def MIGRATION_CONCURRENCY : Nat := 5

/-- The configuration of `appMigrationQueue` from the source:
`jobOptions: (attempts: MAX_ATTEMPTS, removeOnComplete: true,
removeOnFail: true), maxStalledCount: MAX_ATTEMPTS`, consumed at
concurrency `MIGRATION_CONCURRENCY`. -/
def appMigrationQueueConfig : QueueConfig where
  maxAttempts := MAX_ATTEMPTS
  concurrency := MIGRATION_CONCURRENCY
  removeOnComplete := true
  removeOnFail := true
  maxStalledCount := MAX_ATTEMPTS

/-- A queue job, from the spec's data model: tenant id, attempt counter,
status, last error; plus the queue-assigned id and the stall-detection
counter used by the stalled-job policy. -/
structure Job where
  id : String
  tenantId : String
  attempts : Nat
  stallCount : Nat
  status : JobStatus
  failedReason : Option String
  deriving DecidableEq, Repr

/-- A freshly enqueued job: `Waiting`, no attempts, no stall detections,
no recorded failure. -/
def newJob (id tenantId : String) : Job where
  id := id
  tenantId := tenantId
  attempts := 0
  stallCount := 0
  status := JobStatus.waiting
  failedReason := none

/-- A freshly claimed job: as enqueued, but `Active`. -/
def jobActive (id tenantId : String) : Job :=
  { newJob id tenantId with status := JobStatus.active }

/-- JavaScript template-literal rendering of a possibly-undefined failure
reason (`undefined` interpolates as the text "undefined"). -/
def reasonText : Option String → String
  | none => "undefined"
  | some r => r

/-- The alert message built by `removeStalledCb` in the source:
`App migration failed, queue job ID: $(job.id) - reason: $(job.failedReason)`. -/
def removeStalledCbMessage (j : Job) : String :=
  "App migration failed, queue job ID: " ++ j.id ++ " - reason: " ++
    reasonText j.failedReason

/-- Modelled from the spec: the alert raised when a job exhausts its
retries (the `ExhaustedRetries` branch of the error taxonomy).  The spec
requires a human-readable message containing the job's identifier and
failure reason, distinct from the stalled-job message; the concrete
wording is not in the visible source. -/
def exhaustedRetriesMessage (j : Job) : String :=
  "App migration exhausted retries, queue job ID: " ++ j.id ++
    " - reason: " ++ reasonText j.failedReason

/-- Events that drive a single job through the queue's state machine. -/
inductive JobEvent
  | claim
  | succeed
  | fail (err : String)
  | stallCheck
  deriving DecidableEq, Repr

/-- Modelled from the spec: the single-job transition function of the job
queue (the `BudibaseQueue`/bull engine is not in the visible source).
`claim` takes a `Waiting` job to `Active`; a successful handler completes
an `Active` job; a handler failure increments `attempts` and re-queues the
job while `attempts < maxAttempts`, otherwise marks it `Failed` and fires
the alert hook; a stall detection re-queues an `Active` job while at most
`maxStalledCount` detections have occurred, otherwise marks it `Stalled`
and fires the alert hook with the job's id and last known failure reason.
The second component is the alert emitted by the transition, if any. -/
def jobStep (cfg : QueueConfig) (j : Job) (ev : JobEvent) : Job × Option String :=
  match ev, j.status with
  | JobEvent.claim, JobStatus.waiting =>
      ({ j with status := JobStatus.active }, none)
  | JobEvent.succeed, JobStatus.active =>
      ({ j with status := JobStatus.completed }, none)
  | JobEvent.fail err, JobStatus.active =>
      let j' : Job := { j with attempts := j.attempts + 1, failedReason := some err }
      if j'.attempts < cfg.maxAttempts then
        ({ j' with status := JobStatus.waiting }, none)
      else
        ({ j' with status := JobStatus.failed }, some (exhaustedRetriesMessage j'))
  | JobEvent.stallCheck, JobStatus.active =>
      if j.stallCount < cfg.maxStalledCount then
        ({ j with stallCount := j.stallCount + 1, status := JobStatus.waiting }, none)
      else
        ({ j with status := JobStatus.stalled }, some (removeStalledCbMessage j))
  | _, _ => (j, none)

/-- One claim-then-handler-failure round trip of a job. -/
def failCycle (cfg : QueueConfig) (err : String) (j : Job) : Job :=
  (jobStep cfg (jobStep cfg j JobEvent.claim).1 (JobEvent.fail err)).1

/-- `n` consecutive claim/handler-failure round trips. -/
def iterFailCycle (cfg : QueueConfig) (err : String) : Nat → Job → Job
  | 0, j => j
  | n + 1, j => iterFailCycle cfg err n (failCycle cfg err j)

/-- One claim-then-stall-detection round trip of a job (the worker never
reports completion, so the background check fires on the active job). -/
def stallCycle (cfg : QueueConfig) (j : Job) : Job :=
  (jobStep cfg (jobStep cfg j JobEvent.claim).1 JobEvent.stallCheck).1

/-- The alert emitted by the stall detection of one claim/stall round trip. -/
def stallCycleAlert (cfg : QueueConfig) (j : Job) : Option String :=
  (jobStep cfg (jobStep cfg j JobEvent.claim).1 JobEvent.stallCheck).2

/-- `n` consecutive claim/stall-detection round trips. -/
def iterStallCycle (cfg : QueueConfig) : Nat → Job → Job
  | 0, j => j
  | n + 1, j => iterStallCycle cfg n (stallCycle cfg j)

/-- The whole queue: its job entries and the alerts raised so far. -/
structure QueueState where
  jobs : List Job
  alerts : List String
  deriving DecidableEq, Repr

/-- Number of jobs currently in `Active` state. -/
def countActive (jobs : List Job) : Nat :=
  jobs.countP (fun j => decide (j.status = JobStatus.active))

/-- Number of jobs currently in a terminal `Completed` or `Failed` state. -/
def countTerminal (jobs : List Job) : Nat :=
  jobs.countP
    (fun j => decide (j.status = JobStatus.completed ∨ j.status = JobStatus.failed))

/-- Modelled from the spec: the effect on the whole queue of delivering one
event to the job at index `i`: the job is updated by `jobStep`; a job whose
new state is terminal `Completed`/`Failed` is purged immediately when the
corresponding `removeOnComplete`/`removeOnFail` flag is set, otherwise the
updated entry is kept; the emitted alert, if any, is appended. -/
def applyJobStepAt (cfg : QueueConfig) (s : QueueState) (i : Nat)
    (h : i < s.jobs.length) (ev : JobEvent) : QueueState :=
  let j' := (jobStep cfg (s.jobs.get ⟨i, h⟩) ev).1
  let alert := (jobStep cfg (s.jobs.get ⟨i, h⟩) ev).2
  let keep : Bool :=
    if j'.status = JobStatus.completed then !cfg.removeOnComplete
    else if j'.status = JobStatus.failed then !cfg.removeOnFail
    else true
  { jobs := if keep then s.jobs.set i j' else s.jobs.eraseIdx i
    alerts := s.alerts ++ alert.toList }

/-- Modelled from the spec: the queue's transition relation.  `enqueue`
admits a new `Waiting` job unconditionally (no per-key exclusivity); a
`Waiting → Active` claim is allowed only while fewer than `concurrency`
jobs are `Active`; handler success, handler failure and stall detection
act on an `Active` job through `applyJobStepAt`. -/
inductive QueueStep (cfg : QueueConfig) : QueueState → QueueState → Prop
  | enqueue (s : QueueState) (id tid : String) :
      QueueStep cfg s { s with jobs := s.jobs ++ [newJob id tid] }
  | claim (s : QueueState) (i : Nat) (h : i < s.jobs.length)
      (hw : (s.jobs.get ⟨i, h⟩).status = JobStatus.waiting)
      (hc : countActive s.jobs < cfg.concurrency) :
      QueueStep cfg s (applyJobStepAt cfg s i h JobEvent.claim)
  | succeed (s : QueueState) (i : Nat) (h : i < s.jobs.length)
      (ha : (s.jobs.get ⟨i, h⟩).status = JobStatus.active) :
      QueueStep cfg s (applyJobStepAt cfg s i h JobEvent.succeed)
  | fail (s : QueueState) (i : Nat) (h : i < s.jobs.length) (err : String)
      (ha : (s.jobs.get ⟨i, h⟩).status = JobStatus.active) :
      QueueStep cfg s (applyJobStepAt cfg s i h (JobEvent.fail err))
  | stallCheck (s : QueueState) (i : Nat) (h : i < s.jobs.length)
      (ha : (s.jobs.get ⟨i, h⟩).status = JobStatus.active) :
      QueueStep cfg s (applyJobStepAt cfg s i h JobEvent.stallCheck)

/-- The initially empty queue. -/
def initialQueue : QueueState where
  jobs := []
  alerts := []

/-- States the queue can reach from empty by `QueueStep` transitions. -/
inductive Reachable (cfg : QueueConfig) : QueueState → Prop
  | init : Reachable cfg initialQueue
  | step (s s' : QueueState) (hs : Reachable cfg s) (h : QueueStep cfg s s') :
      Reachable cfg s'

/-- The bull job record as seen by the consumer handler: the queue-assigned
id and the producer-supplied payload. -/
structure BullJob (T : Type) where
  id : String
  data : T
  deriving DecidableEq, Repr

/-- `AppMigrationJob` from the source: the payload carries the app id. -/
structure AppMigrationJob where
  appId : String
  deriving DecidableEq, Repr

/-- A consumer registration as produced by `queue.process(concurrency,
handler)`: the concurrency bound and the handler.  The handler's
`Except` value is the queue's success/failure contract: `Except.ok` acks
the job, `Except.error` rejects it into the retry policy (an `async`
handler whose awaited call rejects propagates the rejection). -/
structure QueueRegistration (T : Type) where
  concurrency : Nat
  handler : BullJob T → Except String Unit

/-- `processMessage` from the source: destructure `appId` from `job.data`
and await `processMigrations(appId)`.  `processMigrations` lives in
`./migrationsProcessor`, outside the visible source, so it is passed here
as a parameter; its outcome is returned unchanged. -/
def processMessage (processMigrations : String → Except String Unit)
    (job : BullJob AppMigrationJob) : Except String Unit :=
  processMigrations job.data.appId

/-- `init` from the source:
`appMigrationQueue.process(MIGRATION_CONCURRENCY, processMessage)`. -/
def init (processMigrations : String → Except String Unit) :
    QueueRegistration AppMigrationJob where
  concurrency := MIGRATION_CONCURRENCY
  handler := processMessage processMigrations

/-- A migration definition held by the registry; only its globally unique,
ordered id matters to `stepsFor`. -/
structure MigrationDefinition where
  id : String
  deriving DecidableEq, Repr

/-- `TenantMigrationState` from the spec's data model. -/
structure TenantMigrationState where
  tenantId : String
  appliedIds : List String
  deriving DecidableEq, Repr

/-- Modelled from the spec: `Registry.stepsFor` (the registry module is not
in the visible source) returns, in registration order, every definition
whose id is not yet in `appliedIds`; pure, no I/O. -/
def stepsFor (registry : List MigrationDefinition) (st : TenantMigrationState) :
    List MigrationDefinition :=
  registry.filter (fun d => decide (¬ d.id ∈ st.appliedIds))

/-- One leaf entry of a UI filter group; `parseFilter` inspects the
truthiness of `field` and `operator` and otherwise carries entries whole
(`value` stands for the rest of the payload). -/
structure SearchFilter where
  field : Option String
  operator : Option String
  value : Option String
  deriving DecidableEq, Repr

/-- `SearchFilterGroup` as used by `parseFilter`: an optional list of leaf
filters plus the rest of the group's payload. -/
structure SearchFilterGroup where
  logicalOperator : Option String
  filters : Option (List SearchFilter)
  deriving DecidableEq, Repr

/-- `UISearchFilter`: an optional list of groups plus top-level payload. -/
structure UISearchFilter where
  logicalOperator : Option String
  onEmptyFilter : Option String
  groups : Option (List SearchFilterGroup)
  deriving DecidableEq, Repr

/-- JavaScript truthiness of an optional string: absent (`undefined` or
`null`) and the empty string are falsy. -/
def truthyStr : Option String → Bool
  | none => false
  | some s => decide (¬ s = "")

/-- `parseFilter` from the source: when the input has no `groups`, it is
returned as-is; otherwise a (deep-cloned) copy is built in which each
group with a `filters` list keeps only entries whose `field` and
`operator` are truthy, a group whose filtered list has length `0` is
mapped to `null` and dropped, and a group without a `filters` list is
kept unchanged. -/
def parseFilter (filter : UISearchFilter) : UISearchFilter :=
  match filter.groups with
  | none => filter
  | some gs =>
      { filter with
        groups := some (gs.filterMap (fun group =>
          match group.filters with
          | some fs =>
              let kept := fs.filter (fun f => truthyStr f.field && truthyStr f.operator)
              if kept.length = 0 then none
              else some { group with filters := some kept }
          | none => some group)) }

/-- The transformation described by the claim on `parseFilter`, written
independently with `List.foldr`: groups without a `filters` list are kept
as-is, groups with one keep only entries with truthy `field` and
`operator`, and groups whose filtered list is empty are removed; an input
without `groups` is returned unchanged. -/
def parseFilterClaim (filter : UISearchFilter) : UISearchFilter :=
  match filter.groups with
  | none => filter
  | some gs =>
      { filter with
        groups := some (gs.foldr (fun group acc =>
          match group.filters with
          | none => group :: acc
          | some fs =>
              let kept := fs.filter (fun f => truthyStr f.field && truthyStr f.operator)
              if kept.isEmpty then acc
              else { group with filters := some kept } :: acc) []) }


lemma jobStep_terminal (cfg : QueueConfig) (j : Job) (ev : JobEvent)
    (h : j.status = JobStatus.failed ∨ j.status = JobStatus.stalled) :
    jobStep cfg j ev = (j, none) := by
  rcases h with h | h <;> cases ev <;> simp [jobStep, h]

lemma failCycle_terminal (cfg : QueueConfig) (err : String) (j : Job)
    (h : j.status = JobStatus.failed ∨ j.status = JobStatus.stalled) :
    failCycle cfg err j = j := by
  unfold failCycle
  rw [jobStep_terminal cfg j JobEvent.claim h]
  rw [jobStep_terminal cfg j (JobEvent.fail err) h]

lemma iterFailCycle_of_terminal (cfg : QueueConfig) (err : String) (j : Job)
    (h : j.status = JobStatus.failed ∨ j.status = JobStatus.stalled) :
    ∀ n, iterFailCycle cfg err n j = j := by
  intro n
  induction n with
  | zero => rfl
  | succ n ih =>
      show iterFailCycle cfg err n (failCycle cfg err j) = j
      rw [failCycle_terminal cfg err j h, ih]

lemma iterFailCycle_add (cfg : QueueConfig) (err : String) (m : Nat) :
    ∀ (k : Nat) (j : Job),
      iterFailCycle cfg err (k + m) j = iterFailCycle cfg err m (iterFailCycle cfg err k j) := by
  intro k
  induction k with
  | zero => intro j; rw [Nat.zero_add]; rfl
  | succ k ih =>
      intro j
      rw [Nat.succ_add]
      show iterFailCycle cfg err (k + m) (failCycle cfg err j) = _
      rw [ih (failCycle cfg err j)]
      rfl

/-- C1: a job whose handler fails on every attempt transitions to `Failed`
after exactly `maxAttempts` active attempts (3 in the configured queue),
never fewer and never more; each failure before the last returns it to
`Waiting`. -/
theorem alwaysFailing_job_fails_after_maxAttempts (id tid err : String) :
    (∀ k, k < appMigrationQueueConfig.maxAttempts →
        (iterFailCycle appMigrationQueueConfig err k (newJob id tid)).status = JobStatus.waiting ∧
        (iterFailCycle appMigrationQueueConfig err k (newJob id tid)).attempts = k) ∧
    (iterFailCycle appMigrationQueueConfig err appMigrationQueueConfig.maxAttempts
        (newJob id tid)).status = JobStatus.failed ∧
    (iterFailCycle appMigrationQueueConfig err appMigrationQueueConfig.maxAttempts
        (newJob id tid)).attempts = appMigrationQueueConfig.maxAttempts ∧
    (∀ n, appMigrationQueueConfig.maxAttempts ≤ n →
        iterFailCycle appMigrationQueueConfig err n (newJob id tid)
          = iterFailCycle appMigrationQueueConfig err appMigrationQueueConfig.maxAttempts
              (newJob id tid)) := by
  refine ⟨?_, rfl, rfl, ?_⟩
  · intro k hk
    have hk3 : k < 3 := hk
    have : k = 0 ∨ k = 1 ∨ k = 2 := by omega
    rcases this with rfl | rfl | rfl
    · exact ⟨rfl, rfl⟩
    · exact ⟨rfl, rfl⟩
    · exact ⟨rfl, rfl⟩
  · intro n hn
    have hn3 : 3 ≤ n := hn
    obtain ⟨d, rfl⟩ : ∃ d, n = 3 + d := ⟨n - 3, by omega⟩
    show iterFailCycle appMigrationQueueConfig err (3 + d) (newJob id tid) = _
    rw [iterFailCycle_add appMigrationQueueConfig err d 3 (newJob id tid)]
    exact iterFailCycle_of_terminal appMigrationQueueConfig err _ (Or.inl rfl) d

/-- C1 witness: after two of the three attempts the concrete job is back in
`Waiting` with two recorded attempts. -/
theorem alwaysFailing_job_fails_after_maxAttempts_witness :
    (iterFailCycle appMigrationQueueConfig "boom" 2 (newJob "42" "app_a")).status
        = JobStatus.waiting ∧
    (iterFailCycle appMigrationQueueConfig "boom" 2 (newJob "42" "app_a")).attempts = 2 :=
  (alwaysFailing_job_fails_after_maxAttempts "42" "app_a" "boom").1 2 (by decide)

lemma stallCycle_terminal (cfg : QueueConfig) (j : Job)
    (h : j.status = JobStatus.failed ∨ j.status = JobStatus.stalled) :
    stallCycle cfg j = j := by
  unfold stallCycle
  rw [jobStep_terminal cfg j JobEvent.claim h]
  rw [jobStep_terminal cfg j JobEvent.stallCheck h]

lemma iterStallCycle_of_terminal (cfg : QueueConfig) (j : Job)
    (h : j.status = JobStatus.failed ∨ j.status = JobStatus.stalled) :
    ∀ n, iterStallCycle cfg n j = j := by
  intro n
  induction n with
  | zero => rfl
  | succ n ih =>
      show iterStallCycle cfg n (stallCycle cfg j) = j
      rw [stallCycle_terminal cfg j h, ih]

/-- C4: a job whose worker never reports completion is re-queued into
`Waiting` at most `maxStalledCount` times (3 in the configured queue);
the next stall detection marks it `Stalled` and the alert hook fires with
a message carrying the job id and the last known failure reason. -/
theorem neverCompleting_job_stalls_after_maxStalledCount (id tid : String) :
    (∀ k, k ≤ appMigrationQueueConfig.maxStalledCount →
        (iterStallCycle appMigrationQueueConfig k (newJob id tid)).status = JobStatus.waiting ∧
        (iterStallCycle appMigrationQueueConfig k (newJob id tid)).stallCount = k) ∧
    (iterStallCycle appMigrationQueueConfig (appMigrationQueueConfig.maxStalledCount + 1)
        (newJob id tid)).status = JobStatus.stalled ∧
    stallCycleAlert appMigrationQueueConfig
        (iterStallCycle appMigrationQueueConfig appMigrationQueueConfig.maxStalledCount
          (newJob id tid))
      = some ("App migration failed, queue job ID: " ++ id ++ " - reason: " ++ "undefined") := by
  refine ⟨?_, rfl, rfl⟩
  intro k hk
  have hk3 : k ≤ 3 := hk
  have : k = 0 ∨ k = 1 ∨ k = 2 ∨ k = 3 := by omega
  rcases this with rfl | rfl | rfl | rfl
  · exact ⟨rfl, rfl⟩
  · exact ⟨rfl, rfl⟩
  · exact ⟨rfl, rfl⟩
  · exact ⟨rfl, rfl⟩

/-- C4 witness: after all three tolerated stall detections the concrete job
is back in `Waiting` with a stall count of three. -/
theorem neverCompleting_job_stalls_after_maxStalledCount_witness :
    (iterStallCycle appMigrationQueueConfig 3 (newJob "7" "app_b")).status = JobStatus.waiting ∧
    (iterStallCycle appMigrationQueueConfig 3 (newJob "7" "app_b")).stallCount = 3 :=
  (neverCompleting_job_stalls_after_maxStalledCount "7" "app_b").1 3 (by decide)

/-- C2: a single-job transition out of a non-terminal state reaches
`Failed` or `Stalled` exactly when it emits an alert for the supervisor
hook: there is no terminal give-up without the hook firing. -/
theorem terminal_giveup_iff_alert (cfg : QueueConfig) (j : Job) (ev : JobEvent)
    (hf : ¬ j.status = JobStatus.failed) (hs : ¬ j.status = JobStatus.stalled) :
    ((jobStep cfg j ev).1.status = JobStatus.failed ∨
        (jobStep cfg j ev).1.status = JobStatus.stalled)
      ↔ ((jobStep cfg j ev).2).isSome = true := by
  cases ev <;> cases hst : j.status <;>
    simp only [hst, not_true_eq_false] at hf hs <;>
    simp [jobStep, hst] <;> split <;> simp

/-- C2 witness: an active job on its last configured attempt whose handler
fails transitions to `Failed`, and the transition emits an alert. -/
theorem terminal_giveup_iff_alert_witness :
    ((jobStep appMigrationQueueConfig
          { id := "9", tenantId := "app_c", attempts := 2, stallCount := 0,
            status := JobStatus.active, failedReason := none }
          (JobEvent.fail "boom")).1.status = JobStatus.failed ∨
        (jobStep appMigrationQueueConfig
          { id := "9", tenantId := "app_c", attempts := 2, stallCount := 0,
            status := JobStatus.active, failedReason := none }
          (JobEvent.fail "boom")).1.status = JobStatus.stalled)
      ↔ ((jobStep appMigrationQueueConfig
          { id := "9", tenantId := "app_c", attempts := 2, stallCount := 0,
            status := JobStatus.active, failedReason := none }
          (JobEvent.fail "boom")).2).isSome = true :=
  terminal_giveup_iff_alert appMigrationQueueConfig
    { id := "9", tenantId := "app_c", attempts := 2, stallCount := 0,
      status := JobStatus.active, failedReason := none }
    (JobEvent.fail "boom") (by decide) (by decide)

lemma string_data_append (s t : String) : (s ++ t).data = s.data ++ t.data := rfl

/-- C8: the alert text for a stalled job differs from the alert text for a
job that exhausted its retries, for every pair of jobs, so the two failure
kinds can be told apart from the message alone. -/
theorem stalled_and_exhausted_alerts_distinct (j1 j2 : Job) :
    exhaustedRetriesMessage j1 ≠ removeStalledCbMessage j2 := by
  intro h
  have hd := congrArg String.data h
  simp only [exhaustedRetriesMessage, removeStalledCbMessage, string_data_append] at hd
  simp only [List.append_assoc, List.cons_append, List.cons.injEq] at hd
  have hef : ('e' : Char) = 'f' :=
    hd.2.2.2.2.2.2.2.2.2.2.2.2.2.2.1
  exact absurd hef (by decide)

/-- C8 witness: for one concrete job the two alert texts differ. -/
theorem stalled_and_exhausted_alerts_distinct_witness :
    exhaustedRetriesMessage (newJob "5" "app_h") ≠ removeStalledCbMessage (newJob "5" "app_h") :=
  stalled_and_exhausted_alerts_distinct (newJob "5" "app_h") (newJob "5" "app_h")


lemma filter_not_mem_take (rs : List MigrationDefinition)
    (hnodup : (rs.map MigrationDefinition.id).Nodup) :
    ∀ k, rs.filter (fun d => decide (¬ d.id ∈ (rs.map MigrationDefinition.id).take k))
      = rs.drop k := by
  induction rs with
  | nil => intro k; simp
  | cons d t ih =>
      intro k
      cases k with
      | zero => simp
      | succ k =>
          simp only [List.map_cons, List.take_succ_cons, List.drop_succ_cons,
            List.filter_cons]
          have hd : decide (¬ d.id ∈ d.id :: (t.map MigrationDefinition.id).take k) = false := by
            simp
          rw [hd]
          have hnodup2 : (d.id :: t.map MigrationDefinition.id).Nodup := by
            simpa using hnodup
          have hmem : ¬ d.id ∈ t.map MigrationDefinition.id :=
            (List.nodup_cons.mp hnodup2).1
          have hcongr : ∀ x ∈ t,
              decide (¬ x.id ∈ d.id :: (t.map MigrationDefinition.id).take k)
                = decide (¬ x.id ∈ (t.map MigrationDefinition.id).take k) := by
            intro x hx
            have hxid : x.id ∈ t.map MigrationDefinition.id := List.mem_map_of_mem _ hx
            have hne : x.id ≠ d.id := by
              intro he
              exact hmem (he ▸ hxid)
            simp [List.mem_cons, hne]
          rw [List.filter_congr hcongr]
          exact ih (List.nodup_cons.mp hnodup2).2 k

/-- C6: for a tenant whose `appliedIds` are exactly the first `k` registry
ids in registration order, `stepsFor` returns exactly the registry entries
from position `k` onward, in registration order (empty when the tenant is
already current). -/
theorem stepsFor_applied_take_drop (registry : List MigrationDefinition)
    (st : TenantMigrationState) (k : Nat)
    (hnodup : (registry.map MigrationDefinition.id).Nodup)
    (hst : st.appliedIds = (registry.map MigrationDefinition.id).take k) :
    stepsFor registry st = registry.drop k := by
  unfold stepsFor
  rw [hst]
  exact filter_not_mem_take registry hnodup k

/-- C6 witness: with registry ids `v1, v2, v3` and the first two applied,
the remaining step is exactly `v3`. -/
theorem stepsFor_applied_take_drop_witness :
    stepsFor [⟨"v1"⟩, ⟨"v2"⟩, ⟨"v3"⟩] { tenantId := "app_d", appliedIds := ["v1", "v2"] }
      = [⟨"v3"⟩] :=
  stepsFor_applied_take_drop [⟨"v1"⟩, ⟨"v2"⟩, ⟨"v3"⟩]
    { tenantId := "app_d", appliedIds := ["v1", "v2"] } 2 (by decide) (by decide)

/-- C7: `init` registers the sole consumer at the configured concurrency,
and its handler runs the migration processor on exactly the app id carried
in the job payload, returning the processor outcome as the queue
success/failure result. -/
theorem init_registers_consumer (processMigrations : String → Except String Unit) :
    (init processMigrations).concurrency = MIGRATION_CONCURRENCY ∧
    (init processMigrations).concurrency = appMigrationQueueConfig.concurrency ∧
    ∀ job : BullJob AppMigrationJob,
      (init processMigrations).handler job = processMigrations job.data.appId :=
  ⟨rfl, rfl, fun _ => rfl⟩

/-- C10: `parseFilter` computes exactly the transformation stated by the
claim, and returns an input without `groups` unchanged. -/
theorem parseFilter_matches_claim (f : UISearchFilter) :
    parseFilter f = parseFilterClaim f ∧ (f.groups = none → parseFilter f = f) := by
  constructor
  · unfold parseFilter parseFilterClaim
    cases hg : f.groups with
    | none => rfl
    | some gs =>
        simp only
        congr 2
        clear hg
        induction gs with
        | nil => rfl
        | cons g gs ih =>
            cases hgf : g.filters with
            | none =>
                simp only [List.filterMap_cons, List.foldr_cons, hgf]
                rw [ih]
            | some fs =>
                simp only [List.filterMap_cons, List.foldr_cons, hgf,
                  List.isEmpty_iff, List.length_eq_zero]
                simp only [List.isEmpty_iff, List.length_eq_zero] at ih
                by_cases hk :
                    fs.filter (fun f => truthyStr f.field && truthyStr f.operator) = []
                · simp only [if_pos hk]
                  exact ih
                · simp only [if_neg hk]
                  rw [ih]
  · intro h
    unfold parseFilter
    rw [h]

/-- C10 witness: a filter without `groups` is returned unchanged. -/
theorem parseFilter_matches_claim_witness :
    parseFilter { logicalOperator := some "all", onEmptyFilter := some "none", groups := none }
      = { logicalOperator := some "all", onEmptyFilter := some "none", groups := none } :=
  (parseFilter_matches_claim
    { logicalOperator := some "all", onEmptyFilter := some "none", groups := none }).2 rfl


lemma countP_set_le_succ {α : Type} (p : α → Bool) (l : List α) :
    ∀ (i : Nat) (j : α), (l.set i j).countP p ≤ l.countP p + 1 := by
  induction l with
  | nil => intro i j; simp
  | cons a t ih =>
      intro i j
      cases i with
      | zero =>
          simp only [List.set_cons_zero, List.countP_cons]
          by_cases hj : p j <;> by_cases ha : p a <;> simp [hj, ha] <;> omega
      | succ i =>
          simp only [List.set_cons_succ, List.countP_cons]
          have h := ih i j
          omega

lemma countP_set_notp_le {α : Type} (p : α → Bool) (l : List α) :
    ∀ (i : Nat) (j : α), p j = false → (l.set i j).countP p ≤ l.countP p := by
  induction l with
  | nil => intro i j _; simp
  | cons a t ih =>
      intro i j hj
      cases i with
      | zero =>
          simp only [List.set_cons_zero, List.countP_cons, hj]
          by_cases ha : p a <;> simp [ha] <;> omega
      | succ i =>
          simp only [List.set_cons_succ, List.countP_cons]
          have h := ih i j hj
          omega

lemma countP_eraseIdx_le {α : Type} (p : α → Bool) (l : List α) :
    ∀ i : Nat, (l.eraseIdx i).countP p ≤ l.countP p := by
  induction l with
  | nil => intro i; simp
  | cons a t ih =>
      intro i
      cases i with
      | zero =>
          simp only [List.eraseIdx_cons_zero, List.countP_cons]
          omega
      | succ i =>
          simp only [List.eraseIdx_cons_succ, List.countP_cons]
          have h := ih i
          omega

lemma countP_set_or_erase_le {α : Type} (p : α → Bool) (l : List α) (i : Nat) (j : α)
    (b : Bool) (hj : p j = false) :
    (if b then l.set i j else l.eraseIdx i).countP p ≤ l.countP p := by
  cases b
  · simpa using countP_eraseIdx_le p l i
  · simpa using countP_set_notp_le p l i j hj

lemma countP_set_or_erase_le_succ {α : Type} (p : α → Bool) (l : List α) (i : Nat) (j : α)
    (b : Bool) :
    (if b then l.set i j else l.eraseIdx i).countP p ≤ l.countP p + 1 := by
  cases b
  · exact le_trans (by simpa using countP_eraseIdx_le p l i) (Nat.le_succ _)
  · simpa using countP_set_le_succ p l i j

lemma countP_applyJobStepAt_le (cfg : QueueConfig) (s : QueueState) (i : Nat)
    (h : i < s.jobs.length) (ev : JobEvent) (p : Job → Bool)
    (hne : p (jobStep cfg (s.jobs.get ⟨i, h⟩) ev).1 = false) :
    ((applyJobStepAt cfg s i h ev).jobs).countP p ≤ (s.jobs).countP p := by
  unfold applyJobStepAt
  exact countP_set_or_erase_le p s.jobs i _ _ hne

lemma countP_applyJobStepAt_le_succ (cfg : QueueConfig) (s : QueueState) (i : Nat)
    (h : i < s.jobs.length) (ev : JobEvent) (p : Job → Bool) :
    ((applyJobStepAt cfg s i h ev).jobs).countP p ≤ (s.jobs).countP p + 1 := by
  unfold applyJobStepAt
  exact countP_set_or_erase_le_succ p s.jobs i _ _

lemma jobStep_succeed_not_active (cfg : QueueConfig) (j : Job)
    (ha : j.status = JobStatus.active) :
    decide ((jobStep cfg j JobEvent.succeed).1.status = JobStatus.active) = false := by
  simp [jobStep, ha]

lemma jobStep_fail_not_active (cfg : QueueConfig) (j : Job) (err : String)
    (ha : j.status = JobStatus.active) :
    decide ((jobStep cfg j (JobEvent.fail err)).1.status = JobStatus.active) = false := by
  simp only [jobStep, ha]
  split <;> simp

lemma jobStep_stallCheck_not_active (cfg : QueueConfig) (j : Job)
    (ha : j.status = JobStatus.active) :
    decide ((jobStep cfg j JobEvent.stallCheck).1.status = JobStatus.active) = false := by
  simp only [jobStep, ha]
  split <;> simp

/-- C3: every queue state reachable under the configured queue has at most
`MIGRATION_CONCURRENCY` (= 5) jobs in `Active` state at once. -/
theorem active_jobs_le_concurrency (s : QueueState)
    (hs : Reachable appMigrationQueueConfig s) :
    countActive s.jobs ≤ MIGRATION_CONCURRENCY := by
  induction hs with
  | init => simp [initialQueue, countActive]
  | step s1 s2 hs1 hstep ih =>
      cases hstep with
      | enqueue id tid =>
          unfold countActive at ih ⊢
          simp only [List.countP_append]
          simpa [newJob] using ih
      | claim i h hw hc =>
          have hc5 : countActive s1.jobs + 1 ≤ 5 := hc
          exact le_trans
            (countP_applyJobStepAt_le_succ appMigrationQueueConfig s1 i h JobEvent.claim _) hc5
      | succeed i h ha =>
          exact le_trans
            (countP_applyJobStepAt_le appMigrationQueueConfig s1 i h JobEvent.succeed _
              (jobStep_succeed_not_active appMigrationQueueConfig _ ha)) ih
      | fail i h err ha =>
          exact le_trans
            (countP_applyJobStepAt_le appMigrationQueueConfig s1 i h (JobEvent.fail err) _
              (jobStep_fail_not_active appMigrationQueueConfig _ err ha)) ih
      | stallCheck i h ha =>
          exact le_trans
            (countP_applyJobStepAt_le appMigrationQueueConfig s1 i h JobEvent.stallCheck _
              (jobStep_stallCheck_not_active appMigrationQueueConfig _ ha)) ih

/-- C3 witness: the bound holds at the empty queue, which is reachable. -/
theorem active_jobs_le_concurrency_witness :
    countActive initialQueue.jobs ≤ MIGRATION_CONCURRENCY :=
  active_jobs_le_concurrency initialQueue Reachable.init

lemma countTerminal_keep_le (l : List Job) (i : Nat) (j' : Job) :
    (if (if j'.status = JobStatus.completed then !true
          else if j'.status = JobStatus.failed then !true else true) = true
      then l.set i j' else l.eraseIdx i).countP
        (fun j => decide (j.status = JobStatus.completed ∨ j.status = JobStatus.failed))
      ≤ l.countP (fun j => decide (j.status = JobStatus.completed ∨ j.status = JobStatus.failed)) := by
  cases hst : j'.status <;> simp <;>
    first
      | exact countP_set_notp_le _ l i j' (by simp [hst])
      | exact countP_eraseIdx_le _ l i

lemma countTerminal_applyJobStepAt_le (s : QueueState) (i : Nat)
    (h : i < s.jobs.length) (ev : JobEvent) :
    countTerminal (applyJobStepAt appMigrationQueueConfig s i h ev).jobs
      ≤ countTerminal s.jobs :=
  countTerminal_keep_le s.jobs i
    (jobStep appMigrationQueueConfig (s.jobs.get ⟨i, h⟩) ev).1

/-- C5: with the configured retention flags (`removeOnComplete = true`,
`removeOnFail = true`), no reachable queue state retains a job in a
terminal `Completed` or `Failed` state: such jobs are purged immediately. -/
theorem terminal_jobs_purged_immediately (s : QueueState)
    (hs : Reachable appMigrationQueueConfig s) :
    appMigrationQueueConfig.removeOnComplete = true ∧
    appMigrationQueueConfig.removeOnFail = true ∧
    countTerminal s.jobs = 0 := by
  refine ⟨rfl, rfl, ?_⟩
  induction hs with
  | init => rfl
  | step s1 s2 hs1 hstep ih =>
      cases hstep with
      | enqueue id tid =>
          unfold countTerminal at ih ⊢
          simp only [List.countP_append]
          simpa [newJob] using ih
      | claim i h hw hc =>
          have hle := countTerminal_applyJobStepAt_le s1 i h JobEvent.claim
          omega
      | succeed i h ha =>
          have hle := countTerminal_applyJobStepAt_le s1 i h JobEvent.succeed
          omega
      | fail i h err ha =>
          have hle := countTerminal_applyJobStepAt_le s1 i h (JobEvent.fail err)
          omega
      | stallCheck i h ha =>
          have hle := countTerminal_applyJobStepAt_le s1 i h JobEvent.stallCheck
          omega

/-- C5 witness: after enqueue, claim and successful completion of a single
job, the completed job has been purged and the queue retains no terminal
job. -/
theorem terminal_jobs_purged_immediately_witness :
    countTerminal ({ jobs := [], alerts := [] } : QueueState).jobs = 0 :=
  (terminal_jobs_purged_immediately { jobs := [], alerts := [] }
    (Reachable.step _ _
      (Reachable.step _ _
        (Reachable.step _ _ Reachable.init
          (QueueStep.enqueue initialQueue "1" "app_e"))
        (QueueStep.claim { jobs := [newJob "1" "app_e"], alerts := [] } 0
          (by decide) (by decide) (by decide)))
      (QueueStep.succeed { jobs := [jobActive "1" "app_e"], alerts := [] } 0
        (by decide) (by decide)))).2.2

/-- C9: the queue imposes no per-tenant exclusivity: any state can enqueue
a fresh job for any tenant unconditionally, and a state with two `Active`
jobs for the same tenant is reachable. -/
theorem no_per_tenant_exclusivity :
    (∀ (s : QueueState) (id tid : String),
        QueueStep appMigrationQueueConfig s { s with jobs := s.jobs ++ [newJob id tid] }) ∧
    (∃ s : QueueState, Reachable appMigrationQueueConfig s ∧
        ∃ (h0 : 0 < s.jobs.length) (h1 : 1 < s.jobs.length),
          (s.jobs.get ⟨0, h0⟩).tenantId = (s.jobs.get ⟨1, h1⟩).tenantId ∧
          (s.jobs.get ⟨0, h0⟩).status = JobStatus.active ∧
          (s.jobs.get ⟨1, h1⟩).status = JobStatus.active) := by
  constructor
  · intro s id tid
    exact QueueStep.enqueue s id tid
  · refine ⟨{ jobs := [jobActive "1" "app_f", jobActive "2" "app_f"], alerts := [] },
      ?_, by decide, by decide, by decide, by decide, by decide⟩
    refine Reachable.step _ _ (Reachable.step _ _ (Reachable.step _ _ (Reachable.step _ _
      Reachable.init
      (QueueStep.enqueue initialQueue "1" "app_f"))
      (QueueStep.enqueue { jobs := [newJob "1" "app_f"], alerts := [] } "2" "app_f"))
      (QueueStep.claim { jobs := [newJob "1" "app_f", newJob "2" "app_f"], alerts := [] } 0
        (by decide) (by decide) (by decide)))
      (QueueStep.claim { jobs := [jobActive "1" "app_f", newJob "2" "app_f"], alerts := [] } 1
        (by decide) (by decide) (by decide))

/-- C9 witness: the empty queue admits an enqueue for a concrete tenant
with no exclusivity precondition. -/
theorem no_per_tenant_exclusivity_witness :
    QueueStep appMigrationQueueConfig initialQueue
      { initialQueue with jobs := initialQueue.jobs ++ [newJob "3" "app_g"] } :=
  no_per_tenant_exclusivity.1 initialQueue "3" "app_g"

end Budibase
